import Mathlib

/-!
Verification of the odf-benchmarker core against its specification.

The development shallowly embeds the Python modules `sysbench_parser.py`,
`cpu_benchmarker.py` and `storage_benchmarker.py`:

* pure text processing (the sysbench output parser, built on `re.search`
  over a fixed table of patterns) becomes executable Lean functions;
* external processes (`subprocess.run`, `os.makedirs`) are modelled by a
  stream of outcomes (`XRes`) consumed one call at a time, exactly as the
  repository's own tests drive `subprocess.run` with a `side_effect` list;
* Python exceptions (`subprocess.CalledProcessError`, `ValueError`,
  `OSError`, `TypeError`) become explicit result constructors; `try/except`
  and `try/finally` become the corresponding case splits;
* numeric values keep the distinction the code makes: `int(...)` on a
  captured literal without a decimal point, `float(...)` otherwise.  The
  float case carries the captured literal itself, since none of the
  verified properties depend on floating-point arithmetic.  Digit and
  whitespace classes are ASCII, per the spec's numeric-format note.
-/

namespace OdfBench

/-- Value stored in a parsed metric record: `int(...)` of a digit literal,
`float(...)` of a literal containing a decimal point (kept as the literal),
or a string parameter tag added by a runner. -/
inductive Val where
  | int (n : Nat)
  | float (lit : String)
  | str (s : String)
  deriving DecidableEq, Repr

/-- A record is a Python dict with string keys, kept in insertion order. -/
abbrev Record := List (String × Val)

/-- Python dict assignment `d[k] = v`: overwrite in place if the key is
present, else append at the end. -/
def updAssoc {β : Type} : List (String × β) → String → β → List (String × β)
  | [], k, v => [(k, v)]
  | (k0, v0) :: rest, k, v =>
    if k0 = k then (k0, v) :: rest else (k0, v0) :: updAssoc rest k v

/-- Python dict lookup `d.get(k)`. -/
def getAssoc {β : Type} : List (String × β) → String → Option β
  | [], _ => none
  | (k0, v0) :: rest, k => if k0 = k then some v0 else getAssoc rest k

/-- ASCII whitespace class of the regex `\s` as used on sysbench output. -/
def pyIsSpace (c : Char) : Bool :=
  c = ' ' || c = '\t' || c = '\n' || c = '\r' || c = '\x0b' || c = '\x0c'

/-- Numeric value of an ASCII digit string (Python `int(...)` on the
captured group, which consists of digits only at every `int` call site). -/
def natOfDigits (cs : List Char) : Nat :=
  cs.foldl (fun acc c => acc * 10 + (c.toNat - '0'.toNat)) 0

/-- Lex a `\d+\.\d+` lexeme at the head of the input, returning the lexeme
and the remaining input.  Greedy matching is exact here because a digit can
never continue past a non-digit. -/
def floatLex (cs : List Char) : Option (List Char × List Char) :=
  let d1 := cs.takeWhile Char.isDigit
  if d1.isEmpty then none
  else
    match cs.drop d1.length with
    | '.' :: r2 =>
      let d2 := r2.takeWhile Char.isDigit
      if d2.isEmpty then none
      else some (d1 ++ '.' :: d2, r2.drop d2.length)
    | _ => none

/-- One token of the fixed regular expressions of `sysbench_parser.py`.
Every pattern in the source is a sequence of literal text, `\s+`, and
numeric lexemes, with exactly one capturing group. -/
inductive Tok where
  | lit (s : String)
  | ws
  | capFloat
  | capInt
  | capDigDot
  | skipFloat
  deriving DecidableEq, Repr

/-- Match a token sequence at the current position, threading the captured
group.  Returns `none` on mismatch, `some acc` on success.  Greedy matching
of `\s+`, `\d+`, `\d+\.\d+` and `[\d.]+` agrees with backtracking regex
semantics for these patterns because each repeated class is always followed
by a character it cannot match. -/
def matchToks : List Tok → List Char → Option String → Option (Option String)
  | [], _, acc => some acc
  | Tok.lit s :: ts, cs, acc =>
    if s.data.isPrefixOf cs then matchToks ts (cs.drop s.data.length) acc else none
  | Tok.ws :: ts, cs, acc =>
    let sp := cs.takeWhile pyIsSpace
    if sp.isEmpty then none else matchToks ts (cs.drop sp.length) acc
  | Tok.capInt :: ts, cs, acc =>
    let d := cs.takeWhile Char.isDigit
    if d.isEmpty then none
    else
      let _ := acc
      matchToks ts (cs.drop d.length) (some (String.mk d))
  | Tok.capDigDot :: ts, cs, acc =>
    let d := cs.takeWhile (fun c => c.isDigit || c = '.')
    if d.isEmpty then none
    else
      let _ := acc
      matchToks ts (cs.drop d.length) (some (String.mk d))
  | Tok.capFloat :: ts, cs, _acc =>
    match floatLex cs with
    | none => none
    | some (tk, rest) => matchToks ts rest (some (String.mk tk))
  | Tok.skipFloat :: ts, cs, acc =>
    match floatLex cs with
    | none => none
    | some (_, rest) => matchToks ts rest acc

/-- Leftmost search of a token pattern, as `re.search`: try every start
position from the left, return the first successful match's capture. -/
def searchToks (ts : List Tok) : List Char → Option String
  | [] => (matchToks ts [] none).bind id
  | c :: rest =>
    match matchToks ts (c :: rest) none with
    | some (some s) => some s
    | _ => searchToks ts rest

/-- Search a pattern in a string (`re.search(pattern, text)` capture). -/
def searchPat (p : List Tok) (text : String) : Option String :=
  searchToks p text.data

/-- Python substring test `needle in text`. -/
def containsSubAux (nd : List Char) : List Char → Bool
  | [] => nd.isEmpty
  | c :: rest => nd.isPrefixOf (c :: rest) || containsSubAux nd rest

/-- Python substring test `needle in text` on strings. -/
def containsSub (needle text : String) : Bool :=
  containsSubAux needle.data text.data

/-- Field table of `SysbenchParser._parse_fileio_output`, one entry per
regex in source order. -/
def fileioPatterns : List (String × List Tok) :=
  [ ("reads/s", [Tok.lit "reads/s:", Tok.ws, Tok.capFloat]),
    ("writes/s", [Tok.lit "writes/s:", Tok.ws, Tok.capFloat]),
    ("fsyncs/s", [Tok.lit "fsyncs/s:", Tok.ws, Tok.capFloat]),
    ("read_mib/s", [Tok.lit "read, MiB/s:", Tok.ws, Tok.capFloat]),
    ("written_mib/s", [Tok.lit "written, MiB/s:", Tok.ws, Tok.capFloat]),
    ("total_time", [Tok.lit "total time:", Tok.ws, Tok.capFloat, Tok.lit "s"]),
    ("total_events", [Tok.lit "total number of events:", Tok.ws, Tok.capInt]),
    ("latency_min", [Tok.lit "min:", Tok.ws, Tok.capFloat]),
    ("latency_avg", [Tok.lit "avg:", Tok.ws, Tok.capFloat]),
    ("latency_max", [Tok.lit "max:", Tok.ws, Tok.capFloat]),
    ("latency_95th", [Tok.lit "95th percentile:", Tok.ws, Tok.capFloat]),
    ("latency_sum", [Tok.lit "sum:", Tok.ws, Tok.capFloat]),
    ("events_avg", [Tok.lit "events (avg/stddev):", Tok.ws, Tok.capFloat]),
    ("events_stddev",
      [Tok.lit "events (avg/stddev):", Tok.ws, Tok.skipFloat, Tok.lit "/", Tok.capDigDot]),
    ("execution_time_avg", [Tok.lit "execution time (avg/stddev):", Tok.ws, Tok.capFloat]),
    ("execution_time_stddev",
      [Tok.lit "execution time (avg/stddev):", Tok.ws, Tok.skipFloat, Tok.lit "/",
        Tok.capDigDot]) ]

/-- Field table of `SysbenchParser._parse_cpu_output`, one entry per regex
in source order. -/
def cpuPatterns : List (String × List Tok) :=
  [ ("events_per_second", [Tok.lit "events per second:", Tok.ws, Tok.capFloat]),
    ("total_time", [Tok.lit "total time:", Tok.ws, Tok.capFloat, Tok.lit "s"]),
    ("total_events", [Tok.lit "total number of events:", Tok.ws, Tok.capInt]),
    ("latency_min", [Tok.lit "min:", Tok.ws, Tok.capFloat]),
    ("latency_avg", [Tok.lit "avg:", Tok.ws, Tok.capFloat]),
    ("latency_max", [Tok.lit "max:", Tok.ws, Tok.capFloat]),
    ("latency_95th", [Tok.lit "95th percentile:", Tok.ws, Tok.capFloat]),
    ("latency_sum", [Tok.lit "sum:", Tok.ws, Tok.capFloat]) ]

/-- Value construction of both extraction loops:
`float(m) if '.' in m else int(m)` on the captured group. -/
def mkVal (s : String) : Val :=
  if s.data.contains '.' then Val.float s else Val.int (natOfDigits s.data)

/-- The extraction loop shared by `_parse_fileio_output` and
`_parse_cpu_output`: for each table entry in order, if the pattern matches,
store the converted capture under the entry's key.  The keys of each table
are pairwise distinct, so consing in table order is exactly the dict-insert
the source performs. -/
def parseFields (pats : List (String × List Tok)) (text : String) : Record :=
  match pats with
  | [] => []
  | (k, p) :: rest =>
    match searchPat p text with
    | some s => (k, mkVal s) :: parseFields rest text
    | none => parseFields rest text

/-- Error raised by `SysbenchParser.parse_output` (`ValueError` in the
source, named `UnsupportedFormatError` by the spec). -/
inductive ParseErr where
  | unsupported
  deriving DecidableEq, Repr

/-- `SysbenchParser.parse_output` on a fresh parser: classify by marker,
first match wins, and extract that schema's fields; raise on neither
marker. -/
def sysbenchParse (text : String) : Except ParseErr Record :=
  if containsSub "File operations" text then
    Except.ok (parseFields fileioPatterns text)
  else if containsSub "CPU speed" text || containsSub "events per second" text then
    Except.ok (parseFields cpuPatterns text)
  else Except.error ParseErr.unsupported

/-- Whether `parse_output` succeeds on the given text. -/
def parseOk (text : String) : Bool :=
  match sysbenchParse text with
  | Except.ok _ => true
  | Except.error _ => false

end OdfBench

namespace OdfBench

/-- Outcome of one external call: `ok` models returncode 0 with the
captured stdout, `fail` models `subprocess.CalledProcessError` (or, for
`os.makedirs`, `OSError`) with the captured stderr. -/
inductive XRes where
  | ok (out : String)
  | fail (errOut : String)
  deriving DecidableEq, Repr

/-- Text the CPU runner hands to the parser for this outcome:
`result.stdout` on success, `e.stderr` on `CalledProcessError`. -/
def XRes.text : XRes → String
  | XRes.ok s => s
  | XRes.fail s => s

/-- Draw the next external-call outcome from the environment stream
(the tests' `side_effect` list); an exhausted stream behaves as a failure
with empty error text. -/
def nextRes : List XRes → XRes × List XRes
  | [] => (XRes.fail "", [])
  | r :: rest => (r, rest)

/-- A config axis value as it appears in the JSON/YAML config: either a
bare scalar or a sequence. -/
inductive CfgVal where
  | scalar (n : Nat)
  | seqOf (ns : List Nat)
  deriving DecidableEq, Repr

/-- One entry of `config["parameters"]` for the CPU runner; `none` models
an absent key. -/
structure ParamSet where
  threads : Option CfgVal
  cpuMaxPrime : Option CfgVal
  deriving DecidableEq, Repr

/-- A run-aborting Python exception inside `CPUBenchmarker.run`. -/
inductive RunErr where
  | typeErr
  | unsupportedFormat
  deriving DecidableEq, Repr

/-- Run outcome of an orchestration function (normal return or exception). -/
inductive RunOutcome (α : Type) where
  | ok (val : α)
  | err (e : RunErr)
  deriving DecidableEq, Repr

/-- Map over the normal result of a run outcome. -/
def RunOutcome.mapVal {α β : Type} (f : α → β) : RunOutcome α → RunOutcome β
  | RunOutcome.ok a => RunOutcome.ok (f a)
  | RunOutcome.err e => RunOutcome.err e

/-- `threads = param_set.get("threads", [])` followed by
`itertools.product(threads, ...)`: an absent key yields the empty axis, a
sequence is used as is, and a bare scalar raises `TypeError` (an `int` is
not iterable). -/
def getThreadsAxis : Option CfgVal → RunOutcome (List Nat)
  | none => RunOutcome.ok []
  | some (CfgVal.seqOf ns) => RunOutcome.ok ns
  | some (CfgVal.scalar _) => RunOutcome.err RunErr.typeErr

/-- `cpu_max_primes = param_set.get("cpu-max-prime", [10000])` followed by
the `isinstance(..., list)` normalization: an absent key defaults to
`[10000]`, a bare scalar is wrapped into a one-element list. -/
def normPrimes : Option CfgVal → List Nat
  | none => [10000]
  | some (CfgVal.scalar n) => [n]
  | some (CfgVal.seqOf ns) => ns

/-- `itertools.product(threads, cpu_max_primes)`: thread axis varies
slowest. -/
def cpuCombos (ts ps : List Nat) : List (Nat × Nat) :=
  ts.flatMap (fun t => ps.map (fun p => (t, p)))

/-- The sysbench command line built for one combination. -/
def sysbenchCpuCmd (t p : Nat) : List String :=
  ["sysbench", "cpu", s!"--threads={t}", s!"--cpu-max-prime={p}", "run"]

/-- Parsed data of an outcome's text, or the parser's empty dict when
parsing raised (used only under hypotheses that rule the latter out). -/
def parsedOr (r : XRes) : Record :=
  match sysbenchParse r.text with
  | Except.ok d => d
  | Except.error _ => []

/-- The record the CPU runner appends for one combination: the parsed data
updated with the combination's parameters. -/
def mkCpuRec (c : Nat × Nat) (r : XRes) : Record :=
  updAssoc (updAssoc (parsedOr r) "threads" (Val.int c.1)) "cpu-max-prime" (Val.int c.2)

/-- The per-combination loop of `CPUBenchmarker.run`: for each combination
build the command, invoke the tool, parse `stdout` on success or `stderr`
on `CalledProcessError`, tag the parsed record with the combination's
parameters and append it.  A `ValueError` from the parser is not caught
and aborts the loop.  Returns the commands invoked, the accumulated
records (or the aborting exception), and the remaining outcome stream. -/
def cpuRunCombos :
    List (Nat × Nat) → List XRes →
      List (List String) × RunOutcome (List Record) × List XRes
  | [], s => ([], RunOutcome.ok [], s)
  | c :: rest, s =>
    let (r, s1) := nextRes s
    let cmd := sysbenchCpuCmd c.1 c.2
    match sysbenchParse r.text with
    | Except.error _ => ([cmd], RunOutcome.err RunErr.unsupportedFormat, s1)
    | Except.ok d =>
      let r0 := updAssoc (updAssoc d "threads" (Val.int c.1)) "cpu-max-prime" (Val.int c.2)
      let (cmds, out, s2) := cpuRunCombos rest s1
      (cmd :: cmds, out.mapVal (r0 :: ·), s2)

/-- `CPUBenchmarker.run`: iterate over `config["parameters"]`, expanding
each parameter set into thread × cpu-max-prime combinations and running
them in order; records accumulate across parameter sets. -/
def cpuRunSets :
    List ParamSet → List XRes →
      List (List String) × RunOutcome (List Record) × List XRes
  | [], s => ([], RunOutcome.ok [], s)
  | ps :: rest, s =>
    match getThreadsAxis ps.threads with
    | RunOutcome.err e => ([], RunOutcome.err e, s)
    | RunOutcome.ok ts =>
      let combos := cpuCombos ts (normPrimes ps.cpuMaxPrime)
      let (cmds, out, s1) := cpuRunCombos combos s
      match out with
      | RunOutcome.err e => (cmds, RunOutcome.err e, s1)
      | RunOutcome.ok recs =>
        let (cmds2, out2, s2) := cpuRunSets rest s1
        (cmds ++ cmds2, out2.mapVal (recs ++ ·), s2)

end OdfBench

namespace OdfBench

/-- Lifecycle phase of one storage combination
(`sysbench fileio prepare|run|cleanup`). -/
inductive Phase where
  | prep
  | run
  | cleanup
  deriving DecidableEq, Repr

/-- One observable external action of the storage runner, in invocation
order.  `mountEnter`/`umountEnter` mark the entry into `mount_disk` /
`unmount_disk`; the remaining constructors are the external tool calls the
method bodies issue. -/
inductive Ev where
  | mountEnter (dev : String)
  | mkdirCall (mp : String)
  | probeCall (mp : String)
  | mkfsCall (dev : String)
  | mountCall (dev mp : String)
  | umountEnter (mp : String)
  | umountCall (mp : String)
  | sysCall (ph : Phase) (disk mp bs wl : String) (th : Nat) (fl : String)
  deriving DecidableEq, Repr

/-- Python `str.startswith(pre)`. -/
def pyStartsWith (pre s : String) : Bool :=
  pre.data.isPrefixOf s.data

/-- Characters after the last slash, accumulating the current segment. -/
def basenameAux : List Char → List Char → List Char
  | cur, [] => cur
  | cur, c :: rest => if c = '/' then basenameAux [] rest else basenameAux (cur ++ [c]) rest

/-- `os.path.basename`: the part after the last slash. -/
def basename (p : String) : String :=
  String.mk (basenameAux [] p.data)

/-- Python `str.endswith(suf)`. -/
def pyEndsWith (suf s : String) : Bool :=
  suf.data.isSuffixOf s.data

/-- `os.path.join(base, name)` for the shapes the runner produces. -/
def joinPath (base name : String) : String :=
  if pyStartsWith "/" name then name
  else if base = "" then name
  else if pyEndsWith "/" base then base ++ name
  else base ++ "/" ++ name

/-- `StorageBenchmarker.mount_disk`: build the per-device mount point under
the mount base; if creating that directory fails, fall back to the raw
device path.  Otherwise probe whether the mount point is already an active
mount (`mountpoint -q`, already mounted iff returncode 0) and return it
unchanged if so; else attempt `mkfs.ext4` (failure swallowed) and `mount`
(on failure, fall back to the raw device path).  Returns the result path,
the external actions performed, and the remaining outcome stream. -/
def mountDisk (mountBase dev : String) (s : List XRes) :
    String × List Ev × List XRes :=
  let mp := joinPath mountBase (basename dev)
  let s1 := (nextRes s).2
  match (nextRes s).1 with
  | XRes.fail _ => (dev, [Ev.mountEnter dev, Ev.mkdirCall mp], s1)
  | XRes.ok _ =>
    let s2 := (nextRes s1).2
    match (nextRes s1).1 with
    | XRes.ok _ =>
      (mp, [Ev.mountEnter dev, Ev.mkdirCall mp, Ev.probeCall mp], s2)
    | XRes.fail _ =>
      let s3 := (nextRes s2).2
      let s4 := (nextRes s3).2
      match (nextRes s3).1 with
      | XRes.ok _ =>
        (mp, [Ev.mountEnter dev, Ev.mkdirCall mp, Ev.probeCall mp, Ev.mkfsCall dev,
          Ev.mountCall dev mp], s4)
      | XRes.fail _ =>
        (dev, [Ev.mountEnter dev, Ev.mkdirCall mp, Ev.probeCall mp, Ev.mkfsCall dev,
          Ev.mountCall dev mp], s4)

/-- `StorageBenchmarker.unmount_disk`: run `umount` only when the path
starts with the mount base (`mount_point.startswith(self.mount_base)`); a
`CalledProcessError` from `umount` is logged and swallowed, so the call's
outcome never changes the behaviour. -/
def unmountDisk (mountBase mp : String) (s : List XRes) : List Ev × List XRes :=
  if pyStartsWith mountBase mp then
    ([Ev.umountEnter mp, Ev.umountCall mp], (nextRes s).2)
  else ([Ev.umountEnter mp], s)

/-- Storage sweep configuration (`disks` keeps only each entry's `path`;
`flags` keeps each entry's `file-extra-flags` value). -/
structure StorageCfg where
  disks : List String
  blocksizes : List String
  workloads : List String
  threads : List Nat
  flags : List String
  deriving DecidableEq, Repr

/-- One sweep combination of the storage runner. -/
abbrev SCombo := String × String × String × Nat × String

/-- `itertools.product(disks, blocksizes, workloads, threads, flags)`:
disk axis varies slowest, flags fastest. -/
def storageCombos (c : StorageCfg) : List SCombo :=
  c.disks.flatMap fun d =>
    c.blocksizes.flatMap fun b =>
      c.workloads.flatMap fun w =>
        c.threads.flatMap fun t =>
          c.flags.map fun f => (d, b, w, t, f)

/-- Result of running one storage combination: one record appended, nothing
appended (failed invocation), or an uncaught `ValueError` aborting the
sweep. -/
inductive StepRes where
  | recd (r : Record)
  | skip
  | abort
  deriving DecidableEq, Repr

/-- The parameter tags `sysbench_run` merges into the parsed record. -/
def storageTag (tbl : List (String × String)) (d b w : String) (t : Nat) (f : String)
    (dta : Record) : Record :=
  let mp := (getAssoc tbl d).getD d
  updAssoc (updAssoc (updAssoc (updAssoc (updAssoc (updAssoc dta
    "disk" (Val.str d)) "mount_point" (Val.str mp)) "blocksize" (Val.str b))
    "workload" (Val.str w)) "threads" (Val.int t)) "flags" (Val.str f)

/-- `sysbench_prepare` / `sysbench_cleanup`: invoke the tool in the disk's
mount point and swallow `CalledProcessError`. -/
def storageSidePhase (ph : Phase) (tbl : List (String × String)) (d b w : String)
    (t : Nat) (f : String) (s : List XRes) : List Ev × List XRes :=
  let mp := (getAssoc tbl d).getD d
  ([Ev.sysCall ph d mp b w t f], (nextRes s).2)

/-- `sysbench_run`: invoke the tool; on `CalledProcessError` log and append
nothing; on success parse the stdout (an unsupported format raises an
uncaught `ValueError`) and append the parsed record tagged with the
combination's parameters. -/
def storageRunStep (tbl : List (String × String)) (d b w : String) (t : Nat)
    (f : String) (s : List XRes) : List Ev × StepRes × List XRes :=
  let mp := (getAssoc tbl d).getD d
  let s1 := (nextRes s).2
  match (nextRes s).1 with
  | XRes.fail _ => ([Ev.sysCall Phase.run d mp b w t f], StepRes.skip, s1)
  | XRes.ok out =>
    match sysbenchParse out with
    | Except.error _ => ([Ev.sysCall Phase.run d mp b w t f], StepRes.abort, s1)
    | Except.ok dta =>
      ([Ev.sysCall Phase.run d mp b w t f], StepRes.recd (storageTag tbl d b w t f dta), s1)

/-- One iteration of the combination loop in `run_all_tests`:
prepare, run, cleanup; a `ValueError` escaping `sysbench_run` skips the
cleanup call and propagates. -/
def storageCombo (tbl : List (String × String)) (c : SCombo) (s : List XRes) :
    List Ev × StepRes × List XRes :=
  match c with
  | (d, b, w, t, f) =>
    let p1 := storageSidePhase Phase.prep tbl d b w t f s
    let p2 := storageRunStep tbl d b w t f p1.2
    match p2.2.1 with
    | StepRes.abort => (p1.1 ++ p2.1, StepRes.abort, p2.2.2)
    | res =>
      let p3 := storageSidePhase Phase.cleanup tbl d b w t f p2.2.2
      (p1.1 ++ p2.1 ++ p3.1, res, p3.2)

/-- The combination loop of `run_all_tests`: run combinations in order,
accumulating the appended records; an abort stops the loop (later
combinations never run) but keeps the records appended so far. -/
def comboPhase (tbl : List (String × String)) :
    List SCombo → List XRes → List Ev × List Record × Bool × List XRes
  | [], s => ([], [], false, s)
  | c :: rest, s =>
    let p := storageCombo tbl c s
    match p.2.1 with
    | StepRes.abort => (p.1, [], true, p.2.2)
    | StepRes.skip =>
      let q := comboPhase tbl rest p.2.2
      (p.1 ++ q.1, q.2.1, q.2.2.1, q.2.2.2)
    | StepRes.recd r =>
      let q := comboPhase tbl rest p.2.2
      (p.1 ++ q.1, r :: q.2.1, q.2.2.1, q.2.2.2)

/-- The mount loop of `run_all_tests`: mount every configured disk in order
and store `mount_points[disk_path] = mount_point`. -/
def mountAll (mountBase : String) :
    List String → List (String × String) → List XRes →
      List (String × String) × List Ev × List XRes
  | [], tbl, s => (tbl, [], s)
  | d :: rest, tbl, s =>
    let m := mountDisk mountBase d s
    let q := mountAll mountBase rest (updAssoc tbl d m.1) m.2.2
    (q.1, m.2.1 ++ q.2.1, q.2.2)

/-- The unmount loop of the `finally` block: unmount every entry of the
device-to-mount-point table in order. -/
def unmountAll (mountBase : String) :
    List (String × String) → List XRes → List Ev × List XRes
  | [], s => ([], s)
  | (_, mp) :: rest, s =>
    let u := unmountDisk mountBase mp s
    let q := unmountAll mountBase rest u.2
    (u.1 ++ q.1, q.2)

/-- Full output of `run_all_tests`: the external-action trace, the records
accumulated in `self.results`, the final device-to-mount-point table, and
whether a `ValueError` aborted the combination loop (re-raised to the
caller after the `finally` block). -/
structure RunAllOut where
  trace : List Ev
  results : List Record
  table : List (String × String)
  aborted : Bool
  deriving DecidableEq, Repr

/-- `StorageBenchmarker.run_all_tests`: mount all disks first, then run all
combinations inside a `try` whose `finally` unmounts every table entry,
even when a combination aborts the loop. -/
def runAllTests (mountBase : String) (cfg : StorageCfg) (s : List XRes) : RunAllOut :=
  let m := mountAll mountBase cfg.disks [] s
  let cp := comboPhase m.1 (storageCombos cfg) m.2.2
  let u := unmountAll mountBase m.1 cp.2.2.2
  ⟨m.2.1 ++ cp.1 ++ u.1, cp.2.1, m.1, cp.2.2.1⟩

/-- Device of a `mountEnter` event. -/
def Ev.meDev : Ev → Option String
  | Ev.mountEnter d => some d
  | _ => none

/-- Mount point of an `umountEnter` event. -/
def Ev.ueMp : Ev → Option String
  | Ev.umountEnter mp => some mp
  | _ => none

/-- Whether an event is a sysbench invocation of some combination. -/
def Ev.isSys : Ev → Bool
  | Ev.sysCall .. => true
  | _ => false

/-- A failure outcome whose error text matches the CPU schema marker. -/
def cpuFailSample : String := "events per second: 5.00"

/-- A small file-I/O-schema output sample. -/
def fioSample : String := "File operations:\n reads/s: 1.00"

end OdfBench

namespace OdfBench

theorem getAssoc_eq_none_of_not_mem {β : Type} (k : String) :
    ∀ l : List (String × β), k ∉ l.map Prod.fst → getAssoc l k = none := by
  intro l
  induction l with
  | nil => intro _; rfl
  | cons hd tl ih =>
    obtain ⟨k0, v0⟩ := hd
    intro h
    simp only [List.map_cons, List.mem_cons] at h
    push_neg at h
    simp only [getAssoc]
    rw [if_neg fun hk => h.1 hk.symm]
    exact ih h.2

theorem getAssoc_parseFields_not_mem (text k : String) :
    ∀ pats : List (String × List Tok), k ∉ pats.map Prod.fst →
      getAssoc (parseFields pats text) k = none := by
  intro pats
  induction pats with
  | nil => intro _; rfl
  | cons hd tl ih =>
    obtain ⟨k0, p0⟩ := hd
    intro h
    simp only [List.map_cons, List.mem_cons] at h
    push_neg at h
    cases hs : searchPat p0 text with
    | some s =>
      simp only [parseFields, hs, getAssoc]
      rw [if_neg fun hk => h.1 hk.symm]
      exact ih h.2
    | none =>
      simp only [parseFields, hs]
      exact ih h.2

theorem getAssoc_parseFields (text : String) :
    ∀ pats : List (String × List Tok), (pats.map Prod.fst).Nodup →
      ∀ k, getAssoc (parseFields pats text) k =
        (getAssoc pats k).bind (fun p => (searchPat p text).map mkVal) := by
  intro pats
  induction pats with
  | nil => intro _ k; rfl
  | cons hd tl ih =>
    obtain ⟨k0, p0⟩ := hd
    intro hnd k
    simp only [List.map_cons, List.nodup_cons] at hnd
    by_cases hk : k0 = k
    · subst hk
      cases hs : searchPat p0 text with
      | some s => simp [parseFields, hs, getAssoc]
      | none =>
        have htl := getAssoc_parseFields_not_mem text k0 tl hnd.1
        simp [parseFields, hs, getAssoc, htl]
    · cases hs : searchPat p0 text with
      | some s =>
        simp only [parseFields, hs, getAssoc, if_neg hk]
        exact ih hnd.2 k
      | none =>
        simp only [parseFields, hs, getAssoc, if_neg hk]
        exact ih hnd.2 k

theorem fileio_keys_nodup : (fileioPatterns.map Prod.fst).Nodup := by decide

theorem cpu_keys_nodup : (cpuPatterns.map Prod.fst).Nodup := by decide

/-- C3: `parse_output` classifies its input by checking the markers in
order with first match winning — text containing `"File operations"` is
parsed under the file-I/O schema; otherwise text containing `"CPU speed"`
or `"events per second"` is parsed under the CPU schema — and it fails
with the unsupported-format error exactly when the input contains none of
the markers; in particular it fails on the empty string. -/
theorem c3_classification (text : String) :
    (containsSub "File operations" text = true →
      sysbenchParse text = Except.ok (parseFields fileioPatterns text)) ∧
    (containsSub "File operations" text = false →
      (containsSub "CPU speed" text || containsSub "events per second" text) = true →
      sysbenchParse text = Except.ok (parseFields cpuPatterns text)) ∧
    (sysbenchParse text = Except.error ParseErr.unsupported ↔
      (containsSub "File operations" text = false ∧
        containsSub "CPU speed" text = false ∧
        containsSub "events per second" text = false)) ∧
    sysbenchParse "" = Except.error ParseErr.unsupported := by
  refine ⟨fun hF => by simp [sysbenchParse, hF], fun hF hC => by simp [sysbenchParse, hF, hC],
    ?_, by rfl⟩
  by_cases hF : containsSub "File operations" text
  · simp [sysbenchParse, hF]
  · by_cases hC : containsSub "CPU speed" text
    · simp [sysbenchParse, hF, hC]
    · by_cases hE : containsSub "events per second" text
      · simp [sysbenchParse, hF, hC, hE]
      · simp [sysbenchParse, hF, hC, hE]

/-- Witness for C3: the classification theorem applied to a concrete
file-I/O-marked text. -/
theorem c3_classification_witness :
    sysbenchParse "File operations" =
      Except.ok (parseFields fileioPatterns "File operations") :=
  (c3_classification "File operations").1 rfl

/-- C4: for every text that `parse_output` classifies into a schema, the
result binds exactly those keys of that schema's table whose pattern
matches somewhere in the text, each bound to the converted capture; and
every bound value is the integer of the captured literal when the literal
contains no decimal point, and the float of the literal otherwise.  Keys
whose pattern does not match (and unknown keys) are absent, never
zero-filled. -/
theorem c4_field_subset (text : String) (r : Record)
    (h : sysbenchParse text = Except.ok r) :
    (∀ k, getAssoc r k =
      (getAssoc (if containsSub "File operations" text then fileioPatterns
        else cpuPatterns) k).bind (fun p => (searchPat p text).map mkVal)) ∧
    (∀ k v, getAssoc r k = some v →
      ∃ p s, getAssoc (if containsSub "File operations" text then fileioPatterns
          else cpuPatterns) k = some p ∧ searchPat p text = some s ∧
        ((s.data.contains '.' = false ∧ v = Val.int (natOfDigits s.data)) ∨
          (s.data.contains '.' = true ∧ v = Val.float s))) := by
  have hr : r = parseFields (if containsSub "File operations" text then fileioPatterns
      else cpuPatterns) text := by
    unfold sysbenchParse at h
    by_cases hF : containsSub "File operations" text
    · rw [if_pos hF] at h ⊢
      exact (Except.ok.inj h).symm
    · rw [if_neg hF] at h ⊢
      by_cases hC : (containsSub "CPU speed" text || containsSub "events per second" text)
          = true
      · rw [if_pos hC] at h
        exact (Except.ok.inj h).symm
      · rw [if_neg hC] at h
        exact absurd h (by simp)
  have hnd : ((if containsSub "File operations" text then fileioPatterns
      else cpuPatterns).map Prod.fst).Nodup := by
    by_cases hF : containsSub "File operations" text
    · simpa [hF] using fileio_keys_nodup
    · simpa [hF] using cpu_keys_nodup
  have hmain := getAssoc_parseFields text _ hnd
  refine ⟨fun k => by rw [hr]; exact hmain k, fun k v hv => ?_⟩
  rw [hr, hmain k] at hv
  cases hp : getAssoc (if containsSub "File operations" text then fileioPatterns
      else cpuPatterns) k with
  | none => rw [hp] at hv; simp at hv
  | some p =>
    rw [hp] at hv
    simp only [Option.some_bind] at hv
    cases hs : searchPat p text with
    | none => rw [hs] at hv; simp at hv
    | some s =>
      rw [hs] at hv
      simp only [Option.map_some', Option.some.injEq] at hv
      refine ⟨p, s, rfl, hs, ?_⟩
      by_cases hd : s.data.contains '.' = true
      · right
        refine ⟨hd, ?_⟩
        rw [← hv]
        unfold mkVal
        rw [if_pos hd]
      · left
        refine ⟨by simpa using hd, ?_⟩
        rw [← hv]
        unfold mkVal
        rw [if_neg hd]

/-- Witness for C4: the field-subset theorem applied to a concrete
file-I/O-schema text. -/
theorem c4_field_subset_witness :
    (∀ k, getAssoc (parseFields fileioPatterns "File operations:\n reads/s: 1.00") k =
      (getAssoc (if containsSub "File operations" "File operations:\n reads/s: 1.00"
          then fileioPatterns else cpuPatterns) k).bind
        (fun p => (searchPat p "File operations:\n reads/s: 1.00").map mkVal)) ∧
    (∀ k v, getAssoc (parseFields fileioPatterns "File operations:\n reads/s: 1.00") k =
        some v →
      ∃ p s, getAssoc (if containsSub "File operations" "File operations:\n reads/s: 1.00"
          then fileioPatterns else cpuPatterns) k = some p ∧
        searchPat p "File operations:\n reads/s: 1.00" = some s ∧
        ((s.data.contains '.' = false ∧ v = Val.int (natOfDigits s.data)) ∨
          (s.data.contains '.' = true ∧ v = Val.float s))) :=
  c4_field_subset "File operations:\n reads/s: 1.00"
    (parseFields fileioPatterns "File operations:\n reads/s: 1.00") rfl

end OdfBench

namespace OdfBench


theorem cpuRunCombos_parsable :
    ∀ (combos : List (Nat × Nat)) (s : List XRes),
      combos.length ≤ s.length →
      (∀ r ∈ s.take combos.length, parseOk r.text = true) →
      cpuRunCombos combos s =
        (combos.map (fun c => sysbenchCpuCmd c.1 c.2),
          RunOutcome.ok (List.zipWith mkCpuRec combos s),
          s.drop combos.length) := by
  intro combos
  induction combos with
  | nil => intro s _ _; simp [cpuRunCombos]
  | cons c rest ih =>
    intro s hlen hok
    cases s with
    | nil => simp at hlen
    | cons r s' =>
      have hr : parseOk r.text = true := hok r (by simp [List.take_succ_cons])
      have hd : ∃ d, sysbenchParse r.text = Except.ok d := by
        unfold parseOk at hr
        cases hpp : sysbenchParse r.text with
        | ok d => exact ⟨d, rfl⟩
        | error e => rw [hpp] at hr; simp at hr
      obtain ⟨d, hdd⟩ := hd
      have hlen' : rest.length ≤ s'.length := by simpa using hlen
      have hok' : ∀ x ∈ s'.take rest.length, parseOk x.text = true := by
        intro x hx
        exact hok x (by
          simp only [List.length_cons, List.take_succ_cons, List.mem_cons]
          exact Or.inr hx)
      have hih := ih s' hlen' hok'
      simp [cpuRunCombos, nextRes, hdd, hih, mkCpuRec, parsedOr, RunOutcome.mapVal]

end OdfBench

namespace OdfBench

/-- C1 (amended): when every text the CPU runner captures — stdout of a
successful invocation or stderr of a failed one — matches a parser schema,
the per-combination loop completes without aborting, invokes exactly the
expected commands, and appends exactly one record per combination: the
parsed text updated with that combination's thread count and
cpu-max-prime.  In particular a failed invocation whose stderr parses
still yields one tagged record and the sweep continues.  (The unamended
claim fails: stderr matching no schema makes the uncaught parser error
abort the sweep, see the counterexample.) -/
theorem c1_cpu_failure_recorded (combos : List (Nat × Nat)) (s : List XRes)
    (hlen : combos.length ≤ s.length)
    (hok : ∀ r ∈ s.take combos.length, parseOk r.text = true) :
    cpuRunCombos combos s =
      (combos.map (fun c => sysbenchCpuCmd c.1 c.2),
        RunOutcome.ok (List.zipWith mkCpuRec combos s),
        s.drop combos.length) :=
  cpuRunCombos_parsable combos s hlen hok

/-- Witness for C1: one combination whose invocation fails with a
CPU-schema stderr still produces exactly one record carrying the
combination's parameters. -/
theorem c1_cpu_failure_recorded_witness :
    cpuRunCombos [(1, 10000)] [XRes.fail cpuFailSample] =
      ([["sysbench", "cpu", "--threads=1", "--cpu-max-prime=10000", "run"]],
        RunOutcome.ok [[("events_per_second", Val.float "5.00"),
          ("threads", Val.int 1), ("cpu-max-prime", Val.int 10000)]],
        []) :=
  (c1_cpu_failure_recorded [(1, 10000)] [XRes.fail cpuFailSample]
    (by decide) (by decide)).trans (by decide)

/-- Counterexample for C1: a single-combination CPU sweep whose invocation
fails with error text matching neither schema does not append a record —
the parser's error propagates and the sweep aborts. -/
theorem c1_counterexample :
    cpuRunSets [⟨some (CfgVal.seqOf [1]), some (CfgVal.seqOf [10000])⟩] [XRes.fail "boom"] =
      ([["sysbench", "cpu", "--threads=1", "--cpu-max-prime=10000", "run"]],
        RunOutcome.err RunErr.unsupportedFormat, []) := by
  decide

/-- C2 (amended): the CPU runner appends exactly one record per
combination attempted provided every captured text matches a parser
schema; the storage runner appends exactly one record for a combination
whose run invocation succeeds with parsable output, and appends nothing
for a combination whose run invocation fails. -/
theorem c2_record_per_outcome :
    (∀ (combos : List (Nat × Nat)) (s : List XRes),
        combos.length ≤ s.length →
        (∀ r ∈ s.take combos.length, parseOk r.text = true) →
        cpuRunCombos combos s =
          (combos.map (fun c => sysbenchCpuCmd c.1 c.2),
            RunOutcome.ok (List.zipWith mkCpuRec combos s),
            s.drop combos.length)) ∧
    (∀ (tbl : List (String × String)) (d b w : String) (t : Nat) (f out : String)
        (dta : Record) (rest : List XRes),
        sysbenchParse out = Except.ok dta →
        storageRunStep tbl d b w t f (XRes.ok out :: rest) =
          ([Ev.sysCall Phase.run d ((getAssoc tbl d).getD d) b w t f],
            StepRes.recd (storageTag tbl d b w t f dta), rest)) ∧
    (∀ (tbl : List (String × String)) (d b w : String) (t : Nat) (f e : String)
        (rest : List XRes),
        storageRunStep tbl d b w t f (XRes.fail e :: rest) =
          ([Ev.sysCall Phase.run d ((getAssoc tbl d).getD d) b w t f],
            StepRes.skip, rest)) := by
  refine ⟨cpuRunCombos_parsable, ?_, ?_⟩
  · intro tbl d b w t f out dta rest h
    simp [storageRunStep, nextRes, h, storageTag]
  · intro tbl d b w t f e rest
    simp [storageRunStep, nextRes]

/-- Witness for C2: a successful storage run invocation with parsable
output appends exactly one tagged record. -/
theorem c2_record_per_outcome_witness :
    storageRunStep [] "/dev/x" "4k" "seqwr" 4 "dsync" [XRes.ok fioSample] =
      ([Ev.sysCall Phase.run "/dev/x" "/dev/x" "4k" "seqwr" 4 "dsync"],
        StepRes.recd (storageTag [] "/dev/x" "4k" "seqwr" 4 "dsync"
          (parseFields fileioPatterns fioSample)), []) :=
  c2_record_per_outcome.2.1 [] "/dev/x" "4k" "seqwr" 4 "dsync" fioSample
    (parseFields fileioPatterns fioSample) [] rfl

/-- Counterexample for C2: a storage sweep with exactly one combination
whose run invocation fails produces an empty result collection, not one
record per combination attempted. -/
theorem c2_counterexample :
    (runAllTests "/mnt/benchmark"
        ⟨["/dev/nbd0"], ["4k"], ["seqwr"], [4], ["dsync"]⟩
        [XRes.ok "", XRes.fail "", XRes.ok "", XRes.ok "",
          XRes.ok "", XRes.fail "boom", XRes.ok "", XRes.ok ""]).results = [] ∧
    (storageCombos ⟨["/dev/nbd0"], ["4k"], ["seqwr"], [4], ["dsync"]⟩).length = 1 := by
  constructor
  · decide
  · decide

/-- C5 (amended): only the CPU runner's cpu-max-prime axis is normalized
from a bare scalar to a one-element sequence before Cartesian-product
expansion — a scalar value there behaves identically to the singleton
list.  (The unamended "every axis" claim fails on the threads axis, see
the counterexample.) -/
theorem c5_prime_scalar_normalized (t : Option CfgVal) (p : Nat)
    (rest : List ParamSet) (s : List XRes) :
    cpuRunSets (⟨t, some (CfgVal.scalar p)⟩ :: rest) s =
      cpuRunSets (⟨t, some (CfgVal.seqOf [p])⟩ :: rest) s :=
  rfl

/-- Counterexample for C5: a bare scalar on the threads axis is not
normalized — the sweep raises `TypeError` (an `int` is not iterable)
instead of behaving like the singleton list. -/
theorem c5_counterexample :
    cpuRunSets [⟨some (CfgVal.scalar 1), some (CfgVal.seqOf [10000])⟩] [XRes.ok cpuFailSample] ≠
      cpuRunSets [⟨some (CfgVal.seqOf [1]), some (CfgVal.seqOf [10000])⟩] [XRes.ok cpuFailSample] := by
  decide

theorem cpuCombos_prime_pairing (p : Nat) :
    ∀ ts : List Nat, cpuCombos ts [p] = ts.map (fun th => (th, p)) := by
  intro ts
  induction ts with
  | nil => rfl
  | cons h t ih => simp [cpuCombos, List.flatMap_cons] at ih ⊢; exact ih

/-- C10: a CPU parameter set without the cpu-max-prime key behaves exactly
as if the key were `[10000]` — the whole run (commands invoked, records
appended, abort behaviour, stream consumption) is identical — and the
default expansion pairs every configured thread count with the prime bound
10000. -/
theorem c10_default_prime (t : Option CfgVal) (rest : List ParamSet) (s : List XRes) :
    cpuRunSets (⟨t, none⟩ :: rest) s =
      cpuRunSets (⟨t, some (CfgVal.seqOf [10000])⟩ :: rest) s ∧
    ∀ ts : List Nat, cpuCombos ts (normPrimes none) = ts.map (fun th => (th, 10000)) :=
  ⟨rfl, cpuCombos_prime_pairing 10000⟩

end OdfBench

namespace OdfBench

theorem mountDisk_trace (base dev : String) (s : List XRes) :
    (mountDisk base dev s).2.1.filterMap Ev.meDev = [dev] ∧
    ∀ e ∈ (mountDisk base dev s).2.1, e.isSys = false ∧ e.ueMp = none := by
  cases h1 : (nextRes s).1 with
  | fail e1 => simp [mountDisk, h1, Ev.meDev, Ev.isSys, Ev.ueMp]
  | ok o1 =>
    cases h2 : (nextRes (nextRes s).2).1 with
    | ok o2 => simp [mountDisk, h1, h2, Ev.meDev, Ev.isSys, Ev.ueMp]
    | fail e2 =>
      cases h4 : (nextRes (nextRes (nextRes (nextRes s).2).2).2).1 with
      | ok o4 => simp [mountDisk, h1, h2, h4, Ev.meDev, Ev.isSys, Ev.ueMp]
      | fail e4 => simp [mountDisk, h1, h2, h4, Ev.meDev, Ev.isSys, Ev.ueMp]

theorem mountAll_trace (base : String) :
    ∀ (disks : List String) (tbl : List (String × String)) (s : List XRes),
      (mountAll base disks tbl s).2.1.filterMap Ev.meDev = disks ∧
      ∀ e ∈ (mountAll base disks tbl s).2.1, e.isSys = false ∧ e.ueMp = none := by
  intro disks
  induction disks with
  | nil => intro tbl s; simp [mountAll]
  | cons d rest ih =>
    intro tbl s
    have h1 := mountDisk_trace base d s
    have h2 := ih (updAssoc tbl d (mountDisk base d s).1) (mountDisk base d s).2.2
    constructor
    · simp only [mountAll, List.filterMap_append, h1.1, h2.1, List.singleton_append]
    · intro e he
      simp only [mountAll, List.mem_append] at he
      rcases he with he | he
      · exact h1.2 e he
      · exact h2.2 e he

theorem storageRunStep_trace (tbl : List (String × String)) (d b w : String)
    (t : Nat) (f : String) (s : List XRes) :
    (storageRunStep tbl d b w t f s).1 =
      [Ev.sysCall Phase.run d ((getAssoc tbl d).getD d) b w t f] := by
  cases h1 : (nextRes s).1 with
  | fail e => simp [storageRunStep, h1]
  | ok o =>
    cases hp : sysbenchParse o with
    | ok dta => simp [storageRunStep, h1, hp]
    | error pe => simp [storageRunStep, h1, hp]

theorem storageCombo_events (tbl : List (String × String)) (c : SCombo) (s : List XRes) :
    ∀ e ∈ (storageCombo tbl c s).1, e.meDev = none ∧ e.ueMp = none := by
  obtain ⟨d, b, w, t, f⟩ := c
  have h2 := storageRunStep_trace tbl d b w t f (nextRes s).2
  cases hres : (storageRunStep tbl d b w t f (nextRes s).2).2.1 with
  | recd r =>
    intro e he
    simp only [storageCombo, storageSidePhase, hres, h2, List.mem_append,
      List.mem_singleton] at he
    rcases he with (he | he) | he <;> subst he <;> exact ⟨rfl, rfl⟩
  | skip =>
    intro e he
    simp only [storageCombo, storageSidePhase, hres, h2, List.mem_append,
      List.mem_singleton] at he
    rcases he with (he | he) | he <;> subst he <;> exact ⟨rfl, rfl⟩
  | abort =>
    intro e he
    simp only [storageCombo, storageSidePhase, hres, h2, List.mem_append,
      List.mem_singleton] at he
    rcases he with he | he <;> subst he <;> exact ⟨rfl, rfl⟩

theorem comboPhase_events (tbl : List (String × String)) :
    ∀ (combos : List SCombo) (s : List XRes),
      ∀ e ∈ (comboPhase tbl combos s).1, e.meDev = none ∧ e.ueMp = none := by
  intro combos
  induction combos with
  | nil => intro s e he; simp [comboPhase] at he
  | cons c rest ih =>
    intro s e he
    have hc := storageCombo_events tbl c s
    cases hres : (storageCombo tbl c s).2.1 with
    | recd r =>
      simp only [comboPhase, hres, List.mem_append] at he
      rcases he with he | he
      · exact hc e he
      · exact ih (storageCombo tbl c s).2.2 e he
    | skip =>
      simp only [comboPhase, hres, List.mem_append] at he
      rcases he with he | he
      · exact hc e he
      · exact ih (storageCombo tbl c s).2.2 e he
    | abort =>
      simp only [comboPhase, hres] at he
      exact hc e he

theorem unmountAll_trace (base : String) :
    ∀ (tbl : List (String × String)) (s : List XRes),
      (unmountAll base tbl s).1.filterMap Ev.ueMp = tbl.map Prod.snd ∧
      ∀ e ∈ (unmountAll base tbl s).1, e.isSys = false ∧ e.meDev = none := by
  intro tbl
  induction tbl with
  | nil => intro s; simp [unmountAll]
  | cons hd rest ih =>
    obtain ⟨dv, mp⟩ := hd
    intro s
    have hu : (unmountDisk base mp s).1.filterMap Ev.ueMp = [mp] ∧
        ∀ e ∈ (unmountDisk base mp s).1, e.isSys = false ∧ e.meDev = none := by
      by_cases hsw : pyStartsWith base mp <;>
        simp [unmountDisk, hsw, nextRes, Ev.ueMp, Ev.isSys, Ev.meDev]
    have h2 := ih (unmountDisk base mp s).2
    constructor
    · simp only [unmountAll, List.filterMap_append, hu.1, h2.1, List.map_cons,
        List.singleton_append]
    · intro e he
      simp only [unmountAll, List.mem_append] at he
      rcases he with he | he
      · exact hu.2 e he
      · exact h2.2 e he

end OdfBench

namespace OdfBench

/-- C6: in every storage sweep, each distinct configured device is mounted
exactly once, and all mounting happens before any sysbench invocation of
any combination; after the sweep, the unmount step is entered for every
entry of the device-to-mount-point table, in table order — also when a
combination aborts the sweep, since the unmount loop sits in a `finally`
block. -/
theorem c6_mount_unmount_lifecycle (mountBase : String) (cfg : StorageCfg)
    (s : List XRes) (hnd : cfg.disks.Nodup) :
    ∃ t1 t2 t3,
      (runAllTests mountBase cfg s).trace = t1 ++ t2 ++ t3 ∧
      t1.filterMap Ev.meDev = cfg.disks ∧
      (∀ dv, (t1.filterMap Ev.meDev).count dv = if dv ∈ cfg.disks then 1 else 0) ∧
      (∀ e ∈ t1, e.isSys = false ∧ e.ueMp = none) ∧
      (∀ e ∈ t2, e.meDev = none ∧ e.ueMp = none) ∧
      (∀ e ∈ t3, e.isSys = false ∧ e.meDev = none) ∧
      t3.filterMap Ev.ueMp = (runAllTests mountBase cfg s).table.map Prod.snd := by
  have hm := mountAll_trace mountBase cfg.disks [] s
  have hcp := comboPhase_events (mountAll mountBase cfg.disks [] s).1 (storageCombos cfg)
    (mountAll mountBase cfg.disks [] s).2.2
  have hu := unmountAll_trace mountBase (mountAll mountBase cfg.disks [] s).1
    (comboPhase (mountAll mountBase cfg.disks [] s).1 (storageCombos cfg)
      (mountAll mountBase cfg.disks [] s).2.2).2.2.2
  refine ⟨(mountAll mountBase cfg.disks [] s).2.1,
    (comboPhase (mountAll mountBase cfg.disks [] s).1 (storageCombos cfg)
      (mountAll mountBase cfg.disks [] s).2.2).1,
    (unmountAll mountBase (mountAll mountBase cfg.disks [] s).1
      (comboPhase (mountAll mountBase cfg.disks [] s).1 (storageCombos cfg)
        (mountAll mountBase cfg.disks [] s).2.2).2.2.2).1,
    rfl, hm.1, ?_, hm.2, hcp, hu.2, hu.1⟩
  intro dv
  rw [hm.1]
  by_cases hmem : dv ∈ cfg.disks
  · rw [if_pos hmem]
    exact List.count_eq_one_of_mem hnd hmem
  · rw [if_neg hmem]
    exact List.count_eq_zero.mpr hmem

/-- Witness for C6: the lifecycle theorem applied to a one-disk sweep
whose single combination aborts (successful run with unparsable output) —
the unmount step still runs for the table entry. -/
theorem c6_mount_unmount_lifecycle_witness :
    ∃ t1 t2 t3,
      (runAllTests "/mnt/benchmark" ⟨["/dev/nbd0"], ["4k"], ["seqwr"], [4], ["dsync"]⟩
        [XRes.ok "", XRes.fail "", XRes.ok "", XRes.ok "",
          XRes.ok "", XRes.ok "garbage", XRes.ok ""]).trace = t1 ++ t2 ++ t3 ∧
      t1.filterMap Ev.meDev = ["/dev/nbd0"] ∧
      (∀ dv, (t1.filterMap Ev.meDev).count dv = if dv ∈ ["/dev/nbd0"] then 1 else 0) ∧
      (∀ e ∈ t1, e.isSys = false ∧ e.ueMp = none) ∧
      (∀ e ∈ t2, e.meDev = none ∧ e.ueMp = none) ∧
      (∀ e ∈ t3, e.isSys = false ∧ e.meDev = none) ∧
      t3.filterMap Ev.ueMp =
        (runAllTests "/mnt/benchmark" ⟨["/dev/nbd0"], ["4k"], ["seqwr"], [4], ["dsync"]⟩
          [XRes.ok "", XRes.fail "", XRes.ok "", XRes.ok "",
            XRes.ok "", XRes.ok "garbage", XRes.ok ""]).table.map Prod.snd :=
  c6_mount_unmount_lifecycle "/mnt/benchmark"
    ⟨["/dev/nbd0"], ["4k"], ["seqwr"], [4], ["dsync"]⟩
    [XRes.ok "", XRes.fail "", XRes.ok "", XRes.ok "",
      XRes.ok "", XRes.ok "garbage", XRes.ok ""] (by decide)

/-- C7 (amended): `unmount_disk` invokes the external unmount tool exactly
when the given path starts with the configured mount-base prefix (so under
the default base `/mnt/benchmark` a fallback raw-device path is never
unmounted, but a mount base that prefixes the device path defeats the
guard, see the counterexample); the tool's outcome never changes the
trace (failures are logged and swallowed), and `unmount_disk` never
raises. -/
theorem c7_umount_guard (base mp : String) (s : List XRes) :
    ((Ev.umountCall mp ∈ (unmountDisk base mp s).1) ↔ pyStartsWith base mp = true) ∧
    (∀ e ∈ (unmountDisk base mp s).1, ∀ q, e = Ev.umountCall q →
      q = mp ∧ pyStartsWith base mp = true) ∧
    (∀ (r rp : XRes) (rest : List XRes),
      (unmountDisk base mp (r :: rest)).1 = (unmountDisk base mp (rp :: rest)).1) := by
  by_cases hsw : pyStartsWith base mp
  · refine ⟨by simp [unmountDisk, hsw], ?_, ?_⟩
    · intro e he q heq
      subst heq
      simp only [unmountDisk, if_pos hsw, List.mem_cons, List.mem_singleton] at he
      rcases he with he | he | he
      · exact absurd he (by simp)
      · exact ⟨(Ev.umountCall.injEq q mp).mp he, hsw⟩
      · exact absurd he (by simp)
    · intro r rp rest
      simp [unmountDisk, hsw]
  · refine ⟨by simp [unmountDisk, hsw], ?_, ?_⟩
    · intro e he q heq
      subst heq
      simp only [unmountDisk, if_neg hsw, List.mem_singleton] at he
      exact absurd he (by simp)
    · intro r rp rest
      simp [unmountDisk, hsw]

/-- Witness for C7: for a path outside the mount base, the unmount tool is
not invoked. -/
theorem c7_umount_guard_witness :
    (Ev.umountCall "/dev/nbd0" ∈ (unmountDisk "/mnt/benchmark" "/dev/nbd0" []).1) = False :=
  by
  have h := (c7_umount_guard "/mnt/benchmark" "/dev/nbd0" []).1
  simp only [eq_iff_iff, iff_false]
  intro hmem
  exact absurd (h.mp hmem) (by decide)

/-- Counterexample for C7: with mount base `/dev`, a failed mount falls
back to the raw device path `/dev/nbd0`, and `unmount_disk` then does
invoke the unmount tool on that raw device path. -/
theorem c7_counterexample :
    (mountDisk "/dev" "/dev/nbd0"
      [XRes.ok "", XRes.fail "", XRes.ok "", XRes.fail ""]).1 = "/dev/nbd0" ∧
    Ev.umountCall "/dev/nbd0" ∈ (unmountDisk "/dev" "/dev/nbd0" [XRes.ok ""]).1 := by
  constructor
  · decide
  · decide

/-- C8: when the mount-point directory is created and the already-mounted
probe succeeds, `mount_disk` returns the device's mount point without
invoking the filesystem-creation or mount tools; a second call on an
already-mounted device (probe succeeds) returns the same path as a first
call that actually mounted the device. -/
theorem c8_mount_idempotent (base dev a b : String) (rest : List XRes) :
    ((mountDisk base dev (XRes.ok a :: XRes.ok b :: rest)).1 =
      joinPath base (basename dev)) ∧
    (∀ e ∈ (mountDisk base dev (XRes.ok a :: XRes.ok b :: rest)).2.1,
      (∀ dv, e ≠ Ev.mkfsCall dv) ∧ (∀ dv m, e ≠ Ev.mountCall dv m)) ∧
    (∀ (c m d2 : String) (r3 : XRes) (rest2 : List XRes),
      (mountDisk base dev (XRes.ok a :: XRes.ok b :: rest)).1 =
        (mountDisk base dev
          (XRes.ok c :: XRes.fail m :: r3 :: XRes.ok d2 :: rest2)).1) := by
  refine ⟨rfl, ?_, ?_⟩
  · intro e he
    simp only [mountDisk, nextRes, List.mem_cons, List.not_mem_nil, or_false] at he
    rcases he with he | he | he <;> subst he <;>
      exact ⟨fun dv => by simp, fun dv m => by simp⟩
  · intro c m d2 r3 rest2
    rfl

/-- Witness for C8: on a concrete device, the already-mounted path equals
the path returned by a first call that actually mounted the device. -/
theorem c8_mount_idempotent_witness :
    ((mountDisk "/mnt/benchmark" "/dev/nbd0" [XRes.ok "", XRes.ok ""]).1 =
      joinPath "/mnt/benchmark" (basename "/dev/nbd0")) ∧
    ((mountDisk "/mnt/benchmark" "/dev/nbd0" [XRes.ok "", XRes.ok ""]).1 =
      (mountDisk "/mnt/benchmark" "/dev/nbd0"
        [XRes.ok "", XRes.fail "", XRes.ok "", XRes.ok ""]).1) :=
  ⟨(c8_mount_idempotent "/mnt/benchmark" "/dev/nbd0" "" "" []).1,
    (c8_mount_idempotent "/mnt/benchmark" "/dev/nbd0" "" "" []).2.2 "" "" ""
      (XRes.ok "") []⟩

/-- C9: `mount_disk` never raises; when creation of the mount-point
directory fails it returns the raw device path unchanged, when the mount
call fails it likewise falls back to the raw device path, and a failure of
the filesystem-creation step alone is swallowed — mounting proceeds and
the mount point is returned. -/
theorem c9_mount_fallbacks (base dev : String) :
    (∀ (a : String) (rest : List XRes),
      (mountDisk base dev (XRes.fail a :: rest)).1 = dev) ∧
    (∀ (a b : String) (m : XRes) (e : String) (rest : List XRes),
      (mountDisk base dev
        (XRes.ok a :: XRes.fail b :: m :: XRes.fail e :: rest)).1 = dev) ∧
    (∀ (a b f g : String) (rest : List XRes),
      (mountDisk base dev
        (XRes.ok a :: XRes.fail b :: XRes.fail f :: XRes.ok g :: rest)).1 =
        joinPath base (basename dev)) :=
  ⟨fun _ _ => rfl, fun _ _ _ _ _ => rfl, fun _ _ _ _ _ => rfl⟩

end OdfBench
